import Mathlib

set_option linter.unusedVariables false

/-!
Shallow embedding of the libtab quadrature module (quadrature.cpp) and
verification of its specification.  Real (double) arithmetic is idealised
as exact arithmetic over the reals.
-/

namespace Libtab

/-- Modelled from the spec: the Polynomial component (polynomial.h, not
present in src).  A univariate polynomial is an ordered sequence of real
coefficients, lowest degree first; the constructors x(dim) and one(dim)
produce the identity variable and the constant-one polynomial. -/
abbrev Poly : Type := List ℝ

/-- Modelled from the spec: Polynomial::one(1), the constant-one polynomial. -/
def pone : Poly := [1]

/-- Modelled from the spec: Polynomial::x(1), the identity-variable polynomial. -/
def px : Poly := [0, 1]

/-- Modelled from the spec: coefficient-wise polynomial addition. -/
def padd : Poly → Poly → Poly
  | [], q => q
  | p, [] => p
  | a :: p, b :: q => (a + b) :: padd p q

/-- Modelled from the spec: coefficient-wise negation. -/
def pneg (p : Poly) : Poly := p.map (fun c => -c)

/-- Modelled from the spec: polynomial subtraction. -/
def psub (p q : Poly) : Poly := padd p (pneg q)

/-- Modelled from the spec: multiplication of a polynomial by a scalar. -/
def psmul (c : ℝ) (p : Poly) : Poly := p.map (fun t => c * t)

/-- Modelled from the spec: polynomial multiplication (coefficient
convolution, degrees add). -/
def pmul : Poly → Poly → Poly
  | [], _ => []
  | a :: p, q => padd (psmul a q) (0 :: pmul p q)

/-- Modelled from the spec: helper for differentiation, carrying the index. -/
def pdiffAux : ℕ → List ℝ → List ℝ
  | _, [] => []
  | k, c :: cs => ((k : ℝ) + 1) * c :: pdiffAux (k + 1) cs

/-- Modelled from the spec: Polynomial::diff(0), the derivative polynomial. -/
def pdiff (p : Poly) : Poly := pdiffAux 0 p.tail

/-- Modelled from the spec: Polynomial::tabulate(point), evaluation of the
polynomial at a scalar point (Horner form). -/
def tabulate : Poly → ℝ → ℝ
  | [], _ => 0
  | c :: cs, x => c + x * tabulate cs x

/-- Recurrence coefficient a1 = 2k(k+a)(2k+a-2) from compute_jacobi. -/
def ja1 (a : ℝ) (k : ℕ) : ℝ :=
  2 * (k : ℝ) * ((k : ℝ) + a) * (2 * (k : ℝ) + a - 2)

/-- Recurrence coefficient a2 = (2k+a-1)·a² / a1 from compute_jacobi. -/
noncomputable def ja2 (a : ℝ) (k : ℕ) : ℝ :=
  (2 * (k : ℝ) + a - 1) * (a * a) / ja1 a k

/-- Recurrence coefficient a3 = (2k+a-2)(2k+a-1)(2k+a) / a1 from compute_jacobi. -/
noncomputable def ja3 (a : ℝ) (k : ℕ) : ℝ :=
  (2 * (k : ℝ) + a - 2) * (2 * (k : ℝ) + a - 1) * (2 * (k : ℝ) + a) / ja1 a k

/-- Recurrence coefficient a4 = 2(k+a-1)(k-1)(2k+a) / a1 from compute_jacobi. -/
noncomputable def ja4 (a : ℝ) (k : ℕ) : ℝ :=
  2 * ((k : ℝ) + a - 1) * ((k : ℝ) - 1) * (2 * (k : ℝ) + a) / ja1 a k

/-- J₁ = (one·a + x·(a+2))·0.5, the degree-one Jacobi polynomial from
compute_jacobi. -/
def jacobiJ1 (a : ℝ) : Poly :=
  psmul 0.5 (padd (psmul a pone) (psmul (a + 2) px))

/-- One step of the Jacobi recurrence:
Jₖ = Jₖ₋₁·(one·a2 + x·a3) − Jₖ₋₂·a4, from the loop body of compute_jacobi. -/
noncomputable def jacobiStep (a : ℝ) (k : ℕ) (Jkm1 Jkm2 : Poly) : Poly :=
  psub (pmul Jkm1 (padd (psmul (ja2 a k) pone) (psmul (ja3 a k) px)))
    (psmul (ja4 a k) Jkm2)

/-- compute_jacobi(a, n): evaluates the degree-n Jacobi polynomial with
weight parameters (a, 0), filling the table Jn iteratively for k = 2..n
exactly as the source loop does (the fold carries (Jₖ₋₂, Jₖ₋₁)). -/
noncomputable def compute_jacobi (a : ℝ) : ℕ → Poly
  | 0 => pone
  | n + 1 =>
    ((List.range n).foldl
      (fun p i => (p.2, jacobiStep a (i + 2) p.2 p.1)) (pone, jacobiJ1 a)).2

/-- The Jacobi three-term recurrence exactly as the specification states it:
J₀ = 1, J₁ = (a + x·(a+2))/2, and Jₖ = Jₖ₋₁·(a2 + x·a3) − Jₖ₋₂·a4 for k ≥ 2. -/
noncomputable def jacobiSpec (a : ℝ) : ℕ → Poly
  | 0 => pone
  | 1 => jacobiJ1 a
  | k + 2 => jacobiStep a (k + 2) (jacobiSpec a (k + 1)) (jacobiSpec a k)

/-- The deflated Newton correction delta = f / (fp − f·s) with
s = Σ_{i<k} 1/(x − xᵢ), from the loop body of compute_gauss_jacobi_points. -/
noncomputable def newtonDelta (J Jd : Poly) (prev : List ℝ) (x : ℝ) : ℝ :=
  let s := (prev.map (fun xi => 1 / (x - xi))).sum
  let f := tabulate J x
  let fp := tabulate Jd x
  f / (fp - f * s)

/-- The convergence tolerance eps = 1.e-8 of compute_gauss_jacobi_points. -/
noncomputable def newtonEps : ℝ := 1e-8

/-- The bounded Newton iteration of compute_gauss_jacobi_points: while fuel
remains, update x by the deflated Newton correction and stop as soon as the
correction magnitude falls below eps (the update is applied before the
test, as in the source). -/
noncomputable def newtonLoop (J Jd : Poly) (prev : List ℝ) : ℕ → ℝ → ℝ
  | 0, x => x
  | fuel + 1, x =>
    let d := newtonDelta J Jd prev x
    if |d| < newtonEps then x - d
    else newtonLoop J Jd prev fuel (x - d)

/-- The iteration cap max_iter = 100 of compute_gauss_jacobi_points. -/
def newtonMaxIter : ℕ := 100

/-- compute_gauss_jacobi_points(a, m): the m roots of the degree-m Jacobi
polynomial on [-1,1] by Newton iteration; the k-th initial guess is the
Chebyshev point -cos((2k+1)π/(2m)), averaged with the previous root for
k > 0, and the iteration is deflated against the already-found roots.
This is the body of the k-loop, appending the k-th root to the accumulator
of already-found roots. -/
noncomputable def gaussPointsBody (J Jd : Poly) (m : ℕ)
    (acc : List ℝ) (k : ℕ) : List ℝ :=
  let guess0 := -Real.cos ((2 * (k : ℝ) + 1) * Real.pi / (2 * (m : ℝ)))
  let guess :=
    match acc.getLast? with
    | some xp => 0.5 * (guess0 + xp)
    | none => guess0
  acc ++ [newtonLoop J Jd acc newtonMaxIter guess]

/-- compute_gauss_jacobi_points(a, m): the k-loop over all m roots. -/
noncomputable def compute_gauss_jacobi_points (a : ℝ) (m : ℕ) : List ℝ :=
  let J := compute_jacobi a m
  let Jd := pdiff J
  (List.range m).foldl (gaussPointsBody J Jd m) []

/-- compute_gauss_jacobi_rule(a, m): nodes from the Newton solver and
weights a6 / (1 − x²) / J'(x)² with a6 = 2^(a+1) · Γ(m+1) / m!, where the
factorial is the explicit product of the source loop and tgamma is the real
Gamma function. -/
noncomputable def compute_gauss_jacobi_rule (a : ℝ) (m : ℕ) :
    List ℝ × List ℝ :=
  let pts := compute_gauss_jacobi_points a m
  let Jd := pdiff (compute_jacobi a m)
  let a1 := (2 : ℝ) ^ (a + 1)
  let a3 := Real.Gamma ((m : ℝ) + 1)
  let a5 := (List.range m).foldl (fun (p : ℝ) (i : ℕ) => p * ((i : ℝ) + 1)) 1
  let a6 := a1 * a3 / a5
  (pts, pts.map (fun x =>
    a6 / (1 - x * x) / (tabulate Jd x * tabulate Jd x)))

/-- make_quadrature_line(m): the Gauss-Jacobi(a=0) rule rescaled from
[-1,1] to [0,1]. -/
noncomputable def make_quadrature_line (m : ℕ) : List ℝ × List ℝ :=
  let r := compute_gauss_jacobi_rule 0 m
  (r.1.map (fun x => 0.5 * (x + 1)), r.2.map (fun w => w * 0.5))

/-- make_quadrature_triangle_collapsed(m): tensor product of the a=0 and
a=1 Gauss-Jacobi rules mapped by the triangle collapse, m² points. -/
noncomputable def make_quadrature_triangle_collapsed (m : ℕ) :
    List (List ℝ) × List ℝ :=
  let rx := compute_gauss_jacobi_rule 0 m
  let ry := compute_gauss_jacobi_rule 1 m
  ((List.range m).flatMap (fun i => (List.range m).map (fun j =>
      [0.25 * (1 + rx.1.getD i 0) * (1 - ry.1.getD j 0),
       0.5 * (1 + ry.1.getD j 0)])),
   (List.range m).flatMap (fun i => (List.range m).map (fun j =>
      rx.2.getD i 0 * ry.2.getD j 0 * 0.125)))

/-- make_quadrature_tetrahedron_collapsed(m): tensor product of the a=0,
a=1 and a=2 Gauss-Jacobi rules mapped by the tetrahedron collapse,
m³ points. -/
noncomputable def make_quadrature_tetrahedron_collapsed (m : ℕ) :
    List (List ℝ) × List ℝ :=
  let rx := compute_gauss_jacobi_rule 0 m
  let ry := compute_gauss_jacobi_rule 1 m
  let rz := compute_gauss_jacobi_rule 2 m
  ((List.range m).flatMap (fun i => (List.range m).flatMap (fun j =>
      (List.range m).map (fun k =>
      [0.125 * (1 + rx.1.getD i 0) * (1 - ry.1.getD j 0) * (1 - rz.1.getD k 0),
       0.25 * (1 + ry.1.getD j 0) * (1 - rz.1.getD k 0),
       0.5 * (1 + rz.1.getD k 0)]))),
   (List.range m).flatMap (fun i => (List.range m).flatMap (fun j =>
      (List.range m).map (fun k =>
      rx.2.getD i 0 * ry.2.getD j 0 * rz.2.getD k 0 * 0.125 * 0.125))))

/-- make_quadrature(dim, m), the reference-cell entry point: dispatches on
dim with no validation — dim = 1 gives the line rule (points as m×1
coordinate rows), dim = 2 the collapsed triangle rule, and any other dim
the collapsed tetrahedron rule. -/
noncomputable def make_quadrature_ref (dim : ℤ) (m : ℕ) :
    List (List ℝ) × List ℝ :=
  if dim = 1 then
    ((make_quadrature_line m).1.map (fun x => [x]), (make_quadrature_line m).2)
  else if dim = 2 then make_quadrature_triangle_collapsed m
  else make_quadrature_tetrahedron_collapsed m

/-- The error values of the simplex entry point, mirroring the two
runtime-error throws of the source. -/
inductive QuadErr where
  | unsupportedDim
  | invalidSimplex
deriving DecidableEq

/-- The number of coordinate columns of a simplex stored as a list of
vertex rows (Eigen cols()). -/
def cols (simplex : List (List ℝ)) : ℕ := (simplex.headD []).length

/-- The edge-vector matrix bvec: row i is vertex(i+1) − vertex(0). -/
def edgeVectors (simplex : List (List ℝ)) : List (List ℝ) :=
  simplex.tail.map (fun vi =>
    List.zipWith (fun u v => u - v) vi (simplex.headD []))

/-- Frobenius norm of a matrix stored as rows (Eigen norm()). -/
noncomputable def frobNorm (b : List (List ℝ)) : ℝ :=
  Real.sqrt ((b.map (fun r => (r.map (fun t => t * t)).sum)).sum)

/-- Euclidean norm of a vector. -/
noncomputable def norm2 (v : List ℝ) : ℝ :=
  Real.sqrt ((v.map (fun t => t * t)).sum)

/-- Cross product of two 3-vectors. -/
def cross3 (u v : List ℝ) : List ℝ :=
  [u.getD 1 0 * v.getD 2 0 - u.getD 2 0 * v.getD 1 0,
   u.getD 2 0 * v.getD 0 0 - u.getD 0 0 * v.getD 2 0,
   u.getD 0 0 * v.getD 1 0 - u.getD 1 0 * v.getD 0 0]

/-- Determinant of a 2×2 matrix stored as rows. -/
def det2 (b : List (List ℝ)) : ℝ :=
  (b.getD 0 []).getD 0 0 * (b.getD 1 []).getD 1 0
    - (b.getD 0 []).getD 1 0 * (b.getD 1 []).getD 0 0

/-- Determinant of a 3×3 matrix stored as rows. -/
def det3 (b : List (List ℝ)) : ℝ :=
  (b.getD 0 []).getD 0 0 *
      ((b.getD 1 []).getD 1 0 * (b.getD 2 []).getD 2 0
        - (b.getD 1 []).getD 2 0 * (b.getD 2 []).getD 1 0)
    - (b.getD 0 []).getD 1 0 *
      ((b.getD 1 []).getD 0 0 * (b.getD 2 []).getD 2 0
        - (b.getD 1 []).getD 2 0 * (b.getD 2 []).getD 0 0)
    + (b.getD 0 []).getD 2 0 *
      ((b.getD 1 []).getD 0 0 * (b.getD 2 []).getD 1 0
        - (b.getD 1 []).getD 1 0 * (b.getD 2 []).getD 0 0)

/-- The scale factor of the simplex entry point: for dim = 1 the norm of
bvec; for dim = 2 the 2×2 determinant when the simplex has 2 columns and
otherwise the norm of the cross product of the two edge rows; for the
remaining (validated) case dim = 3 the 3×3 determinant. -/
noncomputable def simplexScale (dim : ℤ) (ncols : ℕ) (bvec : List (List ℝ)) : ℝ :=
  if dim = 1 then frobNorm bvec
  else if dim = 2 then
    if ncols = 2 then det2 bvec
    else norm2 (cross3 (bvec.getD 0 []) (bvec.getD 1 []))
  else det3 bvec

/-- Row vector times matrix: (p · b) with b stored as rows. -/
def rowTimesMat (p : List ℝ) (b : List (List ℝ)) : List ℝ :=
  (List.zipWith (fun c (row : List ℝ) => row.map (fun t => c * t)) p b).foldl
    (fun acc r => List.zipWith (fun u v => u + v) acc r)
    (List.replicate (cols b) 0)

/-- make_quadrature(simplex, m), the simplex entry point: validates
dim = rows − 1 ∈ {1,2,3} and cols ≥ dim, computes the edge vectors, picks
the reference rule and scale factor by dimension, multiplies every weight
by the (signed) scale and maps every reference point through
vertex(0) + point·bvec. -/
noncomputable def make_quadrature_simplex (simplex : List (List ℝ)) (m : ℕ) :
    Except QuadErr (List (List ℝ) × List ℝ) :=
  let dim : ℤ := (simplex.length : ℤ) - 1
  if dim < 1 ∨ 3 < dim then Except.error QuadErr.unsupportedDim
  else if (cols simplex : ℤ) < dim then Except.error QuadErr.invalidSimplex
  else
    let bvec := edgeVectors simplex
    let Qr : List (List ℝ) × List ℝ :=
      if dim = 1 then
        ((make_quadrature_line m).1.map (fun x => [x]),
          (make_quadrature_line m).2)
      else if dim = 2 then make_quadrature_triangle_collapsed m
      else make_quadrature_tetrahedron_collapsed m
    let scale := simplexScale dim (cols simplex) bvec
    let v0 := simplex.headD []
    Except.ok
      (Qr.1.map (fun p => List.zipWith (fun u v => u + v) v0 (rowTimesMat p bvec)),
       Qr.2.map (fun w => w * scale))

/-- A single (undeflated-form) Newton update x ↦ x − delta(x). -/
noncomputable def newtonStep (J Jd : Poly) (prev : List ℝ) (x : ℝ) : ℝ :=
  x - newtonDelta J Jd prev x

/-- Unfolding equation for one pass of the bounded Newton loop. -/
theorem newtonLoop_succ (J Jd : Poly) (prev : List ℝ) (fuel : ℕ) (x : ℝ) :
    newtonLoop J Jd prev (fuel + 1) x =
      if |newtonDelta J Jd prev x| < newtonEps
      then x - newtonDelta J Jd prev x
      else newtonLoop J Jd prev fuel (x - newtonDelta J Jd prev x) := rfl

/-- The loop stops as soon as the update magnitude is below eps. -/
theorem newtonLoop_stops (J Jd : Poly) (prev : List ℝ) (fuel : ℕ) (x : ℝ)
    (h : |newtonDelta J Jd prev x| < newtonEps) :
    newtonLoop J Jd prev (fuel + 1) x = x - newtonDelta J Jd prev x := by
  rw [newtonLoop_succ, if_pos h]

/-- The loop keeps iterating while the update magnitude is at least eps. -/
theorem newtonLoop_continues (J Jd : Poly) (prev : List ℝ) (fuel : ℕ) (x : ℝ)
    (h : ¬ |newtonDelta J Jd prev x| < newtonEps) :
    newtonLoop J Jd prev (fuel + 1) x
      = newtonLoop J Jd prev fuel (x - newtonDelta J Jd prev x) := by
  rw [newtonLoop_succ, if_neg h]

/-- The bounded loop performs at most fuel Newton updates. -/
theorem newtonLoop_iterate_bound (J Jd : Poly) (prev : List ℝ) :
    ∀ (fuel : ℕ) (x : ℝ), ∃ k ≤ fuel,
      newtonLoop J Jd prev fuel x = (newtonStep J Jd prev)^[k] x := by
  intro fuel
  induction fuel with
  | zero => exact fun x => ⟨0, le_refl 0, rfl⟩
  | succ fuel ih =>
    intro x
    by_cases h : |newtonDelta J Jd prev x| < newtonEps
    · exact ⟨1, by omega, by rw [newtonLoop_stops _ _ _ _ _ h]; rfl⟩
    · obtain ⟨k, hk, he⟩ := ih (x - newtonDelta J Jd prev x)
      refine ⟨k + 1, by omega, ?_⟩
      rw [newtonLoop_continues _ _ _ _ _ h, he, Function.iterate_succ_apply]
      rfl

/-- Length of a fold that appends one element per step. -/
theorem foldl_append_one_length {α β : Type} (f : List α → β → List α)
    (hf : ∀ acc b, (f acc b).length = acc.length + 1) :
    ∀ (l : List β) (acc : List α),
      (List.foldl f acc l).length = acc.length + l.length := by
  intro l
  induction l with
  | nil => intro acc; simp
  | cons b l ih =>
    intro acc
    rw [List.foldl_cons, ih, hf]
    simp
    omega

/-- compute_gauss_jacobi_points returns exactly m node values. -/
theorem compute_gauss_jacobi_points_length (a : ℝ) (m : ℕ) :
    (compute_gauss_jacobi_points a m).length = m := by
  have h := foldl_append_one_length
    (gaussPointsBody (compute_jacobi a m) (pdiff (compute_jacobi a m)) m)
    (by intro acc b; simp [gaussPointsBody]) (List.range m) []
  simpa [compute_gauss_jacobi_points] using h

/-- Length of a flatMap over a range with constant inner length. -/
theorem flatMap_range_length {α : Type} (f : ℕ → List α) (L : ℕ)
    (hf : ∀ t, (f t).length = L) :
    ∀ m, ((List.range m).flatMap f).length = m * L := by
  intro m
  induction m with
  | zero => simp
  | succ m ih =>
    rw [List.range_succ]
    simp [ih, hf]
    ring

/-- Indexing a flatMap over a range with constant inner length. -/
theorem flatMap_range_getElem {α : Type} (f : ℕ → List α) (L : ℕ)
    (hf : ∀ t, (f t).length = L) :
    ∀ (m i j : ℕ), i < m → j < L →
      ((List.range m).flatMap f)[i * L + j]? = (f i)[j]? := by
  intro m
  induction m with
  | zero => intro i j hi _; omega
  | succ m ih =>
    intro i j hi hj
    rw [List.range_succ, List.flatMap_append]
    rcases Nat.lt_or_ge i m with h | h
    · have hlt : i * L + j < ((List.range m).flatMap f).length := by
        rw [flatMap_range_length f L hf m]
        calc i * L + j < i * L + L := by omega
          _ = (i + 1) * L := (Nat.succ_mul i L).symm
          _ ≤ m * L := Nat.mul_le_mul_right L (by omega)
      rw [List.getElem?_append_left hlt]
      exact ih i j h hj
    · have him : i = m := by omega
      subst him
      have hlen : ((List.range i).flatMap f).length = i * L :=
        flatMap_range_length f L hf i
      rw [List.getElem?_append_right (by rw [hlen]; omega), hlen]
      have hidx : i * L + j - i * L = j := by omega
      rw [hidx]
      simp

/-- getD through zipWith at an in-bounds index. -/
theorem zipWith_getD (f : ℝ → ℝ → ℝ) :
    ∀ (as bs : List ℝ) (i : ℕ), i < as.length → i < bs.length →
      (List.zipWith f as bs).getD i 0 = f (as.getD i 0) (bs.getD i 0) := by
  intro as
  induction as with
  | nil => intro bs i h1 h2; simp at h1
  | cons a as ih =>
    intro bs i h1 h2
    cases bs with
    | nil => simp at h2
    | cons b bs =>
      cases i with
      | zero => rfl
      | succ i =>
        simp only [List.zipWith_cons_cons, List.getD_cons_succ]
        exact ih bs i (by simpa using h1) (by simpa using h2)

/-- The explicit factorial loop of compute_gauss_jacobi_rule computes m!. -/
theorem factorial_foldl (m : ℕ) :
    (List.range m).foldl (fun (p : ℝ) (i : ℕ) => p * ((i : ℝ) + 1)) 1
      = (Nat.factorial m : ℝ) := by
  induction m with
  | zero => simp
  | succ m ih =>
    rw [List.range_succ, List.foldl_append, ih]
    simp [Nat.factorial_succ]
    ring

/-- compute_jacobi at degree 1 is J₁. -/
theorem compute_jacobi_one (a : ℝ) : compute_jacobi a 1 = jacobiJ1 a := rfl

/-- Concrete value: the degree-1 Jacobi polynomial with a = 0 is x. -/
theorem jacobi01 : compute_jacobi (0 : ℝ) 1 = [0, 1] := by
  rw [compute_jacobi_one]
  simp [jacobiJ1, psmul, padd, pone, px]
  norm_num

/-- Concrete value: the degree-1 Jacobi polynomial with a = 1 is 1/2 + 3x/2. -/
theorem jacobi11 : compute_jacobi (1 : ℝ) 1 = [1 / 2, 3 / 2] := by
  rw [compute_jacobi_one]
  simp [jacobiJ1, psmul, padd, pone, px]
  norm_num

/-- Concrete value: derivative of x. -/
theorem pdiff01 : pdiff [0, 1] = [1] := by
  simp [pdiff, pdiffAux]

/-- Concrete value: derivative of 1/2 + 3x/2. -/
theorem pdiff11 : pdiff [1 / 2, 3 / 2] = [3 / 2] := by
  simp [pdiff, pdiffAux]

/-- Concrete value: undeflated Newton correction of x at 0 is 0. -/
theorem delta010 : newtonDelta [0, 1] [1] [] 0 = 0 := by
  simp [newtonDelta, tabulate]

/-- Concrete value: Newton correction of the a = 1 polynomial at 0. -/
theorem delta110 : newtonDelta [1 / 2, 3 / 2] [3 / 2] [] 0 = 1 / 3 := by
  simp [newtonDelta, tabulate]
  norm_num

/-- Concrete value: Newton correction of the a = 1 polynomial at its root. -/
theorem delta11r : newtonDelta [1 / 2, 3 / 2] [3 / 2] [] (-(1 / 3)) = 0 := by
  simp [newtonDelta, tabulate]
  norm_num

/-- List.range 1 spelled out. -/
theorem rangeOne : List.range 1 = [0] := rfl

/-- The first Chebyshev initial guess at m = 1 is exactly 0. -/
theorem chebyshev_guess_01 :
    (2 * ((0 : ℕ) : ℝ) + 1) * Real.pi / (2 * ((1 : ℕ) : ℝ)) = Real.pi / 2 := by
  push_cast
  ring

/-- Concrete run of the root loop body: a = 0, m = 1 converges to 0. -/
theorem gaussBody01 : gaussPointsBody [0, 1] [1] 1 [] 0 = [0] := by
  have h100 : newtonMaxIter = 99 + 1 := rfl
  simp only [gaussPointsBody, List.getLast?_nil, chebyshev_guess_01,
    Real.cos_pi_div_two, neg_zero, h100, List.nil_append]
  rw [newtonLoop_stops _ _ _ _ _ (by rw [delta010]; simp [newtonEps]; norm_num)]
  rw [delta010]
  norm_num

/-- Concrete run of the root loop body: a = 1, m = 1 converges to -1/3
after two Newton updates. -/
theorem gaussBody11 : gaussPointsBody [1 / 2, 3 / 2] [3 / 2] 1 [] 0 = [-(1 / 3)] := by
  have h100 : newtonMaxIter = 99 + 1 := rfl
  have h99 : (99 : ℕ) = 98 + 1 := by norm_num
  simp only [gaussPointsBody, List.getLast?_nil, chebyshev_guess_01,
    Real.cos_pi_div_two, neg_zero, h100, List.nil_append]
  rw [newtonLoop_continues _ _ _ _ _
    (by rw [delta110, show |(1 / 3 : ℝ)| = 1 / 3 from abs_of_pos (by norm_num)]
        norm_num [newtonEps])]
  rw [delta110, h99]
  have hx : (0 : ℝ) - 1 / 3 = -(1 / 3) := by norm_num
  rw [hx]
  rw [newtonLoop_stops _ _ _ _ _ (by rw [delta11r]; simp [newtonEps]; norm_num)]
  rw [delta11r]
  norm_num

/-- Concrete value: the a = 0, m = 1 Gauss-Jacobi node list. -/
theorem points01 : compute_gauss_jacobi_points 0 1 = [0] := by
  show (List.range 1).foldl
    (gaussPointsBody (compute_jacobi 0 1) (pdiff (compute_jacobi 0 1)) 1) [] = [0]
  rw [rangeOne, List.foldl_cons, List.foldl_nil, jacobi01, pdiff01]
  exact gaussBody01

/-- Concrete value: the a = 1, m = 1 Gauss-Jacobi node list. -/
theorem points11 : compute_gauss_jacobi_points 1 1 = [-(1 / 3)] := by
  show (List.range 1).foldl
    (gaussPointsBody (compute_jacobi 1 1) (pdiff (compute_jacobi 1 1)) 1) [] = [-(1 / 3)]
  rw [rangeOne, List.foldl_cons, List.foldl_nil, jacobi11, pdiff11]
  exact gaussBody11

/-- Concrete value: the a = 0, m = 1 Gauss-Jacobi rule on [-1,1]. -/
theorem rule01 : compute_gauss_jacobi_rule 0 1 = ([0], [2]) := by
  unfold compute_gauss_jacobi_rule
  rw [points01, jacobi01, pdiff01, factorial_foldl]
  simp only [List.map_cons, List.map_nil, tabulate]
  norm_num [Real.rpow_one, Real.Gamma_two, Nat.factorial]

/-- Concrete value: the a = 1, m = 1 Gauss-Jacobi rule on [-1,1]. -/
theorem rule11 : compute_gauss_jacobi_rule 1 1 = ([-(1 / 3)], [2]) := by
  unfold compute_gauss_jacobi_rule
  rw [points11, jacobi11, pdiff11, factorial_foldl]
  simp only [List.map_cons, List.map_nil, tabulate]
  have h4 : (2 : ℝ) ^ ((1 : ℝ) + 1) = 4 := by
    rw [show ((1 : ℝ) + 1) = ((2 : ℕ) : ℝ) by norm_num, Real.rpow_natCast]
    norm_num
  rw [h4]
  norm_num [Real.Gamma_two, Nat.factorial]

/-- Concrete value: the m = 1 line rule on [0,1] (midpoint rule). -/
theorem line1 : make_quadrature_line 1 = ([1 / 2], [1]) := by
  unfold make_quadrature_line
  rw [rule01]
  norm_num

/-- Concrete value: the m = 1 collapsed triangle rule (centroid rule). -/
theorem tri1 : make_quadrature_triangle_collapsed 1 = ([[1 / 3, 1 / 3]], [1 / 2]) := by
  unfold make_quadrature_triangle_collapsed
  rw [rule01, rule11, rangeOne]
  simp
  norm_num

/-- Concrete value: edge vectors of the clockwise unit triangle. -/
theorem edge_tri : edgeVectors [[(0 : ℝ), 0], [0, 1], [1, 0]] = [[0, 1], [1, 0]] := by
  simp [edgeVectors]

/-- Concrete value: the scale factor of the clockwise unit triangle is the
negative determinant −1. -/
theorem scale_tri : simplexScale 2 2 [[(0 : ℝ), 1], [1, 0]] = -1 := by
  simp [simplexScale, det2]

/-- Concrete value: the full simplex entry point on the clockwise unit
triangle at m = 1 returns the centroid with weight −1/2. -/
theorem mqs_tri : make_quadrature_simplex [[(0 : ℝ), 0], [0, 1], [1, 0]] 1
    = Except.ok ([[1 / 3, 1 / 3]], [-(1 / 2)]) := by
  unfold make_quadrature_simplex
  norm_num [cols, edge_tri, scale_tri, rowTimesMat, tri1,
    List.replicate_succ, List.zipWith_cons_cons]

/-- The fold in compute_jacobi carries consecutive pairs of the spec
recurrence. -/
theorem compute_jacobi_foldl_invariant (a : ℝ) (n : ℕ) :
    (List.range n).foldl
      (fun p i => (p.2, jacobiStep a (i + 2) p.2 p.1)) (pone, jacobiJ1 a)
      = (jacobiSpec a n, jacobiSpec a (n + 1)) := by
  induction n with
  | zero => simp [jacobiSpec]
  | succ n ih =>
    rw [List.range_succ, List.foldl_append, ih]
    simp [jacobiSpec]

/-- compute_jacobi agrees with the specification recurrence at every degree. -/
theorem compute_jacobi_eq_spec (a : ℝ) (n : ℕ) :
    compute_jacobi a n = jacobiSpec a n := by
  cases n with
  | zero => rfl
  | succ n =>
    show ((List.range n).foldl
      (fun p i => (p.2, jacobiStep a (i + 2) p.2 p.1)) (pone, jacobiJ1 a)).2
      = jacobiSpec a (n + 1)
    rw [compute_jacobi_foldl_invariant]

/-- C6: for every a ≥ 0 and n ≥ 0, compute_jacobi(a, n) returns the
polynomial defined by the three-term recurrence J₀ = 1,
J₁ = (a + x·(a+2))/2, and Jₖ = Jₖ₋₁·(a2 + x·a3) − Jₖ₋₂·a4 with
a1 = 2k(k+a)(2k+a−2), a2 = (2k+a−1)·a², a3 = (2k+a−2)(2k+a−1)(2k+a),
a4 = 2(k+a−1)(k−1)(2k+a), and a2, a3, a4 each divided by a1. -/
theorem claim_C6_jacobi_recurrence (a : ℝ) (ha : 0 ≤ a) (n : ℕ) :
    compute_jacobi a n = jacobiSpec a n :=
  compute_jacobi_eq_spec a n

theorem claim_C6_jacobi_recurrence_witness :
    (0 : ℝ) ≤ 1 ∧ compute_jacobi (1 : ℝ) 3 = jacobiSpec 1 3 :=
  ⟨by norm_num, claim_C6_jacobi_recurrence 1 (by norm_num) 3⟩

/-- C7: for every a ≥ 0 and m ≥ 1 compute_gauss_jacobi_points(a, m)
terminates with exactly m values; each root loop performs at most 100
Newton updates, stops as soon as the update magnitude falls below 1e-8,
and raises no error on non-convergence (the capped loop just returns). -/
theorem claim_C7_newton_bounded (a : ℝ) (ha : 0 ≤ a) (m : ℕ) (hm : 1 ≤ m) :
    (compute_gauss_jacobi_points a m).length = m ∧
    (∀ (J Jd : Poly) (prev : List ℝ) (x : ℝ), ∃ k ≤ newtonMaxIter,
      newtonLoop J Jd prev newtonMaxIter x = (newtonStep J Jd prev)^[k] x) ∧
    (∀ (J Jd : Poly) (prev : List ℝ) (fuel : ℕ) (x : ℝ),
      |newtonDelta J Jd prev x| < newtonEps →
        newtonLoop J Jd prev (fuel + 1) x = x - newtonDelta J Jd prev x) ∧
    newtonMaxIter = 100 ∧ newtonEps = 1e-8 := by
  refine ⟨compute_gauss_jacobi_points_length a m, ?_, ?_, rfl, rfl⟩
  · intro J Jd prev x
    exact newtonLoop_iterate_bound J Jd prev newtonMaxIter x
  · intro J Jd prev fuel x h
    exact newtonLoop_stops J Jd prev fuel x h

theorem claim_C7_newton_bounded_witness :
    (compute_gauss_jacobi_points 0 1).length = 1 :=
  (claim_C7_newton_bounded 0 (le_refl 0) 1 (le_refl 1)).1

/-- C2: the simplex entry point fails exactly when dim = rows − 1 is
outside {1,2,3} or the coordinate column count is smaller than dim; the
dimension check comes first (an invalid dim yields the unsupported-dim
error no matter the columns), and every other input succeeds. -/
theorem claim_C2_simplex_validation (s : List (List ℝ)) (m : ℕ) :
    ((∃ e, make_quadrature_simplex s m = Except.error e) ↔
      (¬((s.length : ℤ) - 1 = 1 ∨ (s.length : ℤ) - 1 = 2 ∨ (s.length : ℤ) - 1 = 3)
        ∨ (cols s : ℤ) < (s.length : ℤ) - 1)) ∧
    (make_quadrature_simplex s m = Except.error QuadErr.unsupportedDim ↔
      ((s.length : ℤ) - 1 < 1 ∨ 3 < (s.length : ℤ) - 1)) := by
  unfold make_quadrature_simplex
  by_cases h1 : ((s.length : ℤ) - 1 < 1 ∨ 3 < (s.length : ℤ) - 1)
  · rw [if_pos h1]
    constructor
    · constructor
      · intro _
        left
        omega
      · intro _
        exact ⟨QuadErr.unsupportedDim, rfl⟩
    · simp [h1]
  · rw [if_neg h1]
    by_cases h2 : (cols s : ℤ) < (s.length : ℤ) - 1
    · rw [if_pos h2]
      constructor
      · constructor
        · intro _
          right
          exact h2
        · intro _
          exact ⟨QuadErr.invalidSimplex, rfl⟩
      · constructor
        · intro h
          simp at h
        · intro h
          exact absurd h h1
    · rw [if_neg h2]
      constructor
      · constructor
        · intro ⟨e, he⟩
          simp at he
        · intro h
          rcases h with h | h
          · exact absurd (by omega : (s.length : ℤ) - 1 = 1
              ∨ (s.length : ℤ) - 1 = 2 ∨ (s.length : ℤ) - 1 = 3) h
          · exact absurd h h2
      · constructor
        · intro h
          simp at h
        · intro h
          exact absurd h h1

/-- C5: each Gauss-Jacobi weight equals [2^(a+1) · m! / m!] divided by
[(1 − x²) · J′(x)²] at the i-th computed node x, where the two factorial
factors — Γ(m+1) and the explicit product loop — are computed
independently and cancel. -/
theorem claim_C5_weight_formula (a : ℝ) (ha : 0 ≤ a) (m i : ℕ) (hm : 1 ≤ m)
    (hi : i < m) (x : ℝ)
    (hx : (compute_gauss_jacobi_points a m)[i]? = some x) :
    ((compute_gauss_jacobi_rule a m).2)[i]? =
      some ((2 : ℝ) ^ (a + 1) * (Nat.factorial m : ℝ) / (Nat.factorial m : ℝ)
        / ((1 - x * x) * (tabulate (pdiff (compute_jacobi a m)) x
            * tabulate (pdiff (compute_jacobi a m)) x))) ∧
    (2 : ℝ) ^ (a + 1) * (Nat.factorial m : ℝ) / (Nat.factorial m : ℝ)
      = (2 : ℝ) ^ (a + 1) := by
  have hfac : ((Nat.factorial m : ℝ)) ≠ 0 :=
    Nat.cast_ne_zero.mpr (Nat.factorial_pos m).ne'
  constructor
  · have hr : (compute_gauss_jacobi_rule a m).2 =
        (compute_gauss_jacobi_points a m).map (fun x =>
          (2 : ℝ) ^ (a + 1) * Real.Gamma ((m : ℝ) + 1)
            / ((List.range m).foldl (fun (p : ℝ) (i : ℕ) => p * ((i : ℝ) + 1)) 1)
            / (1 - x * x)
            / (tabulate (pdiff (compute_jacobi a m)) x
                * tabulate (pdiff (compute_jacobi a m)) x)) := rfl
    rw [hr, List.getElem?_map, hx]
    simp only [Option.map_some']
    rw [Real.Gamma_nat_eq_factorial, factorial_foldl, div_div]
  · rw [mul_div_assoc, div_self hfac, mul_one]

theorem claim_C5_weight_formula_witness :
    ((compute_gauss_jacobi_rule 0 1).2)[0]? =
      some ((2 : ℝ) ^ ((0 : ℝ) + 1) * (Nat.factorial 1 : ℝ) / (Nat.factorial 1 : ℝ)
        / ((1 - (0 : ℝ) * 0) * (tabulate (pdiff (compute_jacobi 0 1)) 0
            * tabulate (pdiff (compute_jacobi 0 1)) 0))) ∧
    (2 : ℝ) ^ ((0 : ℝ) + 1) * (Nat.factorial 1 : ℝ) / (Nat.factorial 1 : ℝ)
      = (2 : ℝ) ^ ((0 : ℝ) + 1) :=
  claim_C5_weight_formula 0 (le_refl 0) 1 0 (le_refl 1) (by norm_num) 0
    (by rw [points01]; rfl)

/-- headD agrees with getD at index zero. -/
theorem headD_eq_getD (l : List (List ℝ)) : l.headD [] = l.getD 0 [] := by
  cases l <;> simp

/-- Indexing into the tail shifts the index by one. -/
theorem getElem?_tail' {α : Type} (l : List α) (i : ℕ) :
    l.tail[i]? = l[i + 1]? := by
  cases l <;> simp

/-- C3 part: the i-th edge vector is vertex(i+1) − vertex(0), componentwise. -/
theorem edgeVectors_getElem (s : List (List ℝ)) (i : ℕ) (hi : i + 1 < s.length) :
    (edgeVectors s)[i]? =
      some (List.zipWith (fun u v => u - v) (s.getD (i + 1) []) (s.getD 0 [])) := by
  unfold edgeVectors
  rw [List.getElem?_map, getElem?_tail', List.getElem?_eq_getElem hi]
  rw [headD_eq_getD]
  simp only [Option.map_some']
  rw [List.getD_eq_getElem s [] hi]

/-- C3: the scale factor used by the simplex entry point: for dim 1 the
Euclidean norm of the single edge vector; for dim 2 with 2 coordinate
columns the 2×2 edge determinant, and with 3 columns the norm of the cross
product of the two edge vectors; for dim 3 the 3×3 edge determinant;
where edge vector i is vertex(i+1) − vertex(0) (first conjunct). -/
theorem claim_C3_scale_factor (s : List (List ℝ)) :
    (∀ i, i + 1 < s.length → (edgeVectors s)[i]? =
      some (List.zipWith (fun u v => u - v) (s.getD (i + 1) []) (s.getD 0 []))) ∧
    (s.length = 2 →
      simplexScale ((s.length : ℤ) - 1) (cols s) (edgeVectors s)
        = Real.sqrt ((((edgeVectors s).getD 0 []).map (fun t => t * t)).sum)) ∧
    (s.length = 3 → cols s = 2 →
      simplexScale ((s.length : ℤ) - 1) (cols s) (edgeVectors s)
        = ((edgeVectors s).getD 0 []).getD 0 0 * ((edgeVectors s).getD 1 []).getD 1 0
          - ((edgeVectors s).getD 0 []).getD 1 0 * ((edgeVectors s).getD 1 []).getD 0 0) ∧
    (s.length = 3 → cols s = 3 →
      simplexScale ((s.length : ℤ) - 1) (cols s) (edgeVectors s)
        = Real.sqrt
            ((((edgeVectors s).getD 0 []).getD 1 0 * ((edgeVectors s).getD 1 []).getD 2 0
                - ((edgeVectors s).getD 0 []).getD 2 0 * ((edgeVectors s).getD 1 []).getD 1 0) ^ 2
              + (((edgeVectors s).getD 0 []).getD 2 0 * ((edgeVectors s).getD 1 []).getD 0 0
                - ((edgeVectors s).getD 0 []).getD 0 0 * ((edgeVectors s).getD 1 []).getD 2 0) ^ 2
              + (((edgeVectors s).getD 0 []).getD 0 0 * ((edgeVectors s).getD 1 []).getD 1 0
                - ((edgeVectors s).getD 0 []).getD 1 0 * ((edgeVectors s).getD 1 []).getD 0 0) ^ 2)) ∧
    (s.length = 4 →
      simplexScale ((s.length : ℤ) - 1) (cols s) (edgeVectors s)
        = ((edgeVectors s).getD 0 []).getD 0 0 *
            (((edgeVectors s).getD 1 []).getD 1 0 * ((edgeVectors s).getD 2 []).getD 2 0
              - ((edgeVectors s).getD 1 []).getD 2 0 * ((edgeVectors s).getD 2 []).getD 1 0)
          - ((edgeVectors s).getD 0 []).getD 1 0 *
            (((edgeVectors s).getD 1 []).getD 0 0 * ((edgeVectors s).getD 2 []).getD 2 0
              - ((edgeVectors s).getD 1 []).getD 2 0 * ((edgeVectors s).getD 2 []).getD 0 0)
          + ((edgeVectors s).getD 0 []).getD 2 0 *
            (((edgeVectors s).getD 1 []).getD 0 0 * ((edgeVectors s).getD 2 []).getD 1 0
              - ((edgeVectors s).getD 1 []).getD 1 0 * ((edgeVectors s).getD 2 []).getD 0 0)) := by
  refine ⟨fun i hi => edgeVectors_getElem s i hi, ?_, ?_, ?_, ?_⟩
  · intro h2
    have hd : ((s.length : ℤ) - 1) = 1 := by rw [h2]; norm_num
    rw [hd]
    unfold simplexScale
    rw [if_pos rfl]
    obtain ⟨v0, v1, rfl⟩ := List.length_eq_two.mp h2
    simp [edgeVectors, frobNorm, List.getD]
  · intro h3 hc2
    have hd : ((s.length : ℤ) - 1) = 2 := by rw [h3]; norm_num
    rw [hd, hc2]
    unfold simplexScale
    rw [if_neg (by norm_num), if_pos rfl, if_pos rfl]
    rfl
  · intro h3 hc3
    have hd : ((s.length : ℤ) - 1) = 2 := by rw [h3]; norm_num
    rw [hd, hc3]
    unfold simplexScale
    rw [if_neg (by norm_num), if_pos rfl, if_neg (by norm_num)]
    unfold norm2 cross3
    simp only [List.map_cons, List.map_nil, List.sum_cons, List.sum_nil]
    congr 1
    ring
  · intro h4
    have hd : ((s.length : ℤ) - 1) = 3 := by rw [h4]; norm_num
    rw [hd]
    unfold simplexScale
    rw [if_neg (by norm_num), if_neg (by norm_num)]
    rfl

theorem claim_C3_scale_factor_witness :
    simplexScale ((([[(0 : ℝ), 0], [0, 1], [1, 0]].length : ℤ)) - 1)
        (cols [[(0 : ℝ), 0], [0, 1], [1, 0]])
        (edgeVectors [[(0 : ℝ), 0], [0, 1], [1, 0]])
      = ((edgeVectors [[(0 : ℝ), 0], [0, 1], [1, 0]]).getD 0 []).getD 0 0
          * ((edgeVectors [[(0 : ℝ), 0], [0, 1], [1, 0]]).getD 1 []).getD 1 0
        - ((edgeVectors [[(0 : ℝ), 0], [0, 1], [1, 0]]).getD 0 []).getD 1 0
          * ((edgeVectors [[(0 : ℝ), 0], [0, 1], [1, 0]]).getD 1 []).getD 0 0 :=
  (claim_C3_scale_factor [[0, 0], [0, 1], [1, 0]]).2.2.1 (by norm_num) rfl

/-- C1 (amended): for every valid simplex the simplex entry point succeeds
and every output weight is the corresponding reference weight multiplied by
the signed scale factor — not its absolute value. -/
theorem claim_C1_weights_signed_scale (s : List (List ℝ)) (m : ℕ)
    (h1 : 1 ≤ (s.length : ℤ) - 1) (h3 : (s.length : ℤ) - 1 ≤ 3)
    (hc : (s.length : ℤ) - 1 ≤ (cols s : ℤ)) :
    ∃ pts, make_quadrature_simplex s m = Except.ok (pts,
      ((if (s.length : ℤ) - 1 = 1 then (make_quadrature_line m).2
        else if (s.length : ℤ) - 1 = 2 then (make_quadrature_triangle_collapsed m).2
        else (make_quadrature_tetrahedron_collapsed m).2).map
        (fun w => w * simplexScale ((s.length : ℤ) - 1) (cols s) (edgeVectors s)))) := by
  unfold make_quadrature_simplex
  rw [if_neg (by omega), if_neg (by omega)]
  by_cases hd1 : (s.length : ℤ) - 1 = 1
  · simp only [if_pos hd1]
    exact ⟨_, rfl⟩
  · by_cases hd2 : (s.length : ℤ) - 1 = 2
    · simp only [if_neg hd1, if_pos hd2]
      exact ⟨_, rfl⟩
    · simp only [if_neg hd1, if_neg hd2]
      exact ⟨_, rfl⟩

theorem claim_C1_weights_signed_scale_witness :
    ∃ pts, make_quadrature_simplex [[(0 : ℝ), 0], [0, 1], [1, 0]] 1 = Except.ok (pts,
      ((if (([[(0 : ℝ), 0], [0, 1], [1, 0]].length : ℤ)) - 1 = 1
          then (make_quadrature_line 1).2
        else if (([[(0 : ℝ), 0], [0, 1], [1, 0]].length : ℤ)) - 1 = 2
          then (make_quadrature_triangle_collapsed 1).2
        else (make_quadrature_tetrahedron_collapsed 1).2).map
        (fun w => w * simplexScale ((([[(0 : ℝ), 0], [0, 1], [1, 0]].length : ℤ)) - 1)
          (cols [[(0 : ℝ), 0], [0, 1], [1, 0]])
          (edgeVectors [[(0 : ℝ), 0], [0, 1], [1, 0]])))) :=
  claim_C1_weights_signed_scale [[0, 0], [0, 1], [1, 0]] 1
    (by norm_num) (by norm_num) (by norm_num [cols])

/-- C1 counterexample: on the clockwise unit triangle (edge determinant −1)
at m = 1 the entry point returns the single weight −1/2, while the
reference weight 1/2 times the absolute scale |−1| is +1/2, so the output
weight is not the reference weight times the absolute scale factor. -/
theorem claim_C1_abs_counterexample :
    make_quadrature_simplex [[(0 : ℝ), 0], [0, 1], [1, 0]] 1
        = Except.ok ([[1 / 3, 1 / 3]], [-(1 / 2)]) ∧
    (make_quadrature_triangle_collapsed 1).2 = [1 / 2] ∧
    simplexScale ((([[(0 : ℝ), 0], [0, 1], [1, 0]].length : ℤ)) - 1)
        (cols [[(0 : ℝ), 0], [0, 1], [1, 0]])
        (edgeVectors [[(0 : ℝ), 0], [0, 1], [1, 0]]) = -1 ∧
    ¬ (-(1 / 2) : ℝ) = (1 / 2 : ℝ) * |(-1 : ℝ)| := by
  refine ⟨mqs_tri, ?_, ?_, by norm_num⟩
  · rw [tri1]
  · rw [show (([[(0 : ℝ), 0], [0, 1], [1, 0]].length : ℤ)) - 1 = 2 by norm_num,
      show cols [[(0 : ℝ), 0], [0, 1], [1, 0]] = 2 from rfl, edge_tri, scale_tri]

/-- C4: make_quadrature_triangle_collapsed(m) builds the a = 0 and a = 1
1-D Gauss-Jacobi rules, emits exactly m² point/weight pairs, and the pair
at tensor index (i, j) is the point (0.25·(1+xᵢ)·(1−yⱼ), 0.5·(1+yⱼ)) with
weight wxᵢ·wyⱼ·0.125. -/
theorem claim_C4_triangle_tensor (m i j : ℕ) (hm : 1 ≤ m) (hi : i < m)
    (hj : j < m) :
    (make_quadrature_triangle_collapsed m).1.length = m * m ∧
    (make_quadrature_triangle_collapsed m).2.length = m * m ∧
    (make_quadrature_triangle_collapsed m).1[i * m + j]? =
      some [0.25 * (1 + (compute_gauss_jacobi_rule 0 m).1.getD i 0)
              * (1 - (compute_gauss_jacobi_rule 1 m).1.getD j 0),
            0.5 * (1 + (compute_gauss_jacobi_rule 1 m).1.getD j 0)] ∧
    (make_quadrature_triangle_collapsed m).2[i * m + j]? =
      some ((compute_gauss_jacobi_rule 0 m).2.getD i 0
              * (compute_gauss_jacobi_rule 1 m).2.getD j 0 * 0.125) := by
  have h1 : (make_quadrature_triangle_collapsed m).1 =
      (List.range m).flatMap (fun i => (List.range m).map (fun j =>
        [0.25 * (1 + (compute_gauss_jacobi_rule 0 m).1.getD i 0)
            * (1 - (compute_gauss_jacobi_rule 1 m).1.getD j 0),
         0.5 * (1 + (compute_gauss_jacobi_rule 1 m).1.getD j 0)])) := rfl
  have h2 : (make_quadrature_triangle_collapsed m).2 =
      (List.range m).flatMap (fun i => (List.range m).map (fun j =>
        (compute_gauss_jacobi_rule 0 m).2.getD i 0
          * (compute_gauss_jacobi_rule 1 m).2.getD j 0 * 0.125)) := rfl
  have hlen1 : ∀ t : ℕ, ((List.range m).map (fun j =>
      [0.25 * (1 + (compute_gauss_jacobi_rule 0 m).1.getD t 0)
          * (1 - (compute_gauss_jacobi_rule 1 m).1.getD j 0),
       0.5 * (1 + (compute_gauss_jacobi_rule 1 m).1.getD j 0)])).length = m := by
    intro t
    simp
  have hlen2 : ∀ t : ℕ, ((List.range m).map (fun j =>
      (compute_gauss_jacobi_rule 0 m).2.getD t 0
        * (compute_gauss_jacobi_rule 1 m).2.getD j 0 * 0.125)).length = m := by
    intro t
    simp
  refine ⟨?_, ?_, ?_, ?_⟩
  · rw [h1, flatMap_range_length _ m hlen1 m]
  · rw [h2, flatMap_range_length _ m hlen2 m]
  · rw [h1, flatMap_range_getElem _ m hlen1 m i j hi hj,
      List.getElem?_map, List.getElem?_range hj, Option.map_some']
  · rw [h2, flatMap_range_getElem _ m hlen2 m i j hi hj,
      List.getElem?_map, List.getElem?_range hj, Option.map_some']

theorem claim_C4_triangle_tensor_witness :
    (make_quadrature_triangle_collapsed 1).1.length = 1 * 1 ∧
    (make_quadrature_triangle_collapsed 1).2.length = 1 * 1 ∧
    (make_quadrature_triangle_collapsed 1).1[0 * 1 + 0]? =
      some [0.25 * (1 + (compute_gauss_jacobi_rule 0 1).1.getD 0 0)
              * (1 - (compute_gauss_jacobi_rule 1 1).1.getD 0 0),
            0.5 * (1 + (compute_gauss_jacobi_rule 1 1).1.getD 0 0)] ∧
    (make_quadrature_triangle_collapsed 1).2[0 * 1 + 0]? =
      some ((compute_gauss_jacobi_rule 0 1).2.getD 0 0
              * (compute_gauss_jacobi_rule 1 1).2.getD 0 0 * 0.125) :=
  claim_C4_triangle_tensor 1 0 0 (le_refl 1) (by norm_num) (by norm_num)

/-- C9: both entry points are deterministic — two calls on equal inputs
return equal point and weight lists (the embedding is a pure function of
its arguments; the source reads no hidden state). -/
theorem claim_C9_determinism (d1 d2 : ℤ) (m1 m2 : ℕ)
    (s1 s2 : List (List ℝ)) (n1 n2 : ℕ)
    (hd : d1 = d2) (hm : m1 = m2) (hs : s1 = s2) (hn : n1 = n2) :
    make_quadrature_ref d1 m1 = make_quadrature_ref d2 m2 ∧
    make_quadrature_simplex s1 n1 = make_quadrature_simplex s2 n2 := by
  subst hd
  subst hm
  subst hs
  subst hn
  exact ⟨rfl, rfl⟩

theorem claim_C9_determinism_witness :
    make_quadrature_ref 2 3 = make_quadrature_ref 2 3 ∧
    make_quadrature_simplex [[(0 : ℝ), 0], [0, 1], [1, 0]] 1
      = make_quadrature_simplex [[(0 : ℝ), 0], [0, 1], [1, 0]] 1 :=
  claim_C9_determinism 2 2 3 3 [[0, 0], [0, 1], [1, 0]] [[0, 0], [0, 1], [1, 0]]
    1 1 rfl rfl rfl rfl

/-- C10: the reference-cell entry point performs no validation and never
fails: dim = 1 gives the line rule, dim = 2 the collapsed triangle rule,
and every other dim — 0, 4, negatives included — the collapsed
tetrahedron rule. -/
theorem claim_C10_ref_dispatch (m : ℕ) (d : ℤ) (hd1 : d ≠ 1) (hd2 : d ≠ 2) :
    make_quadrature_ref 1 m
      = ((make_quadrature_line m).1.map (fun x => [x]),
          (make_quadrature_line m).2) ∧
    make_quadrature_ref 2 m = make_quadrature_triangle_collapsed m ∧
    make_quadrature_ref d m = make_quadrature_tetrahedron_collapsed m := by
  refine ⟨rfl, rfl, ?_⟩
  unfold make_quadrature_ref
  rw [if_neg hd1, if_neg hd2]

theorem claim_C10_ref_dispatch_witness :
    make_quadrature_ref 0 1 = make_quadrature_tetrahedron_collapsed 1 ∧
    make_quadrature_ref 4 1 = make_quadrature_tetrahedron_collapsed 1 ∧
    make_quadrature_ref (-1) 1 = make_quadrature_tetrahedron_collapsed 1 :=
  ⟨(claim_C10_ref_dispatch 1 0 (by decide) (by decide)).2.2,
   (claim_C10_ref_dispatch 1 4 (by decide) (by decide)).2.2,
   (claim_C10_ref_dispatch 1 (-1) (by decide) (by decide)).2.2⟩

end Libtab
